import Mathlib

/-!
Shallow embedding of the feed-synchronization and ranking engine of the
`fuse` repository (React/TypeScript, several near-duplicate variants).

Each definition is translated from one place in the source:
* `mergeEvent`      — realtime INSERT/UPDATE/DELETE handlers in `setupRealtime`
                      (src/unnamed/part_002, lines 203–235 and 740–773);
* `score`, `filtered` (via `applyScope`/`applyOrder`/`applySearch`)
                    — the ranking pipeline of `FeedScreen` (src/src/App.tsx
                      lines 355–372, identical in part_000/part_001);
* `toggleLike`      — the optimistic like toggle with rollback
                      (src/unnamed/part_002, lines 353–398);
* `toggleP0`        — the non-optimistic counter toggle of part_000
                      (lines 432–468);
* `publishP0`       — the composer `publish` of part_000 (lines 382–430);
* `storiesTrayP0`, `pruneStories`, `storiesTrayApp`
                    — story visibility (part_000 lines 170–179 and 858–861,
                      App.tsx lines 743–772).

JS numbers are idealized as `Int` (counters, millisecond timestamps) and
`ℚ` (scores); JS string operations act on `String`/`List Char`.
-/

namespace Fuse

/-- A post, as in the `Post` client type of the source
(id, user_id, text, media, likes, recasts, comments, created_at in ms). -/
structure Post where
  id : String
  userId : String
  text : String
  media : List String
  likes : Int
  recasts : Int
  comments : Int
  createdAt : Int
deriving DecidableEq

/-- A story, as in the `Story` client type of the source. -/
structure Story where
  id : String
  userId : String
  url : String
  createdAt : Int
  expiresAt : Int
deriving DecidableEq

/-- One realtime change notification on the `posts` table, as delivered to
the `postgres_changes` handlers of `setupRealtime`. -/
inductive PostEvent where
  | insert (p : Post)
  | update (p : Post)
  | delete (id : String)
deriving DecidableEq

/-- The fold of one realtime event into the post list, from the three
`channel.on("postgres_changes", ...)` handlers of `setupRealtime`
(part_002): INSERT ignores an already-present id and otherwise prepends,
truncating with `.slice(0, 500)`; UPDATE replaces the row with a matching
id; DELETE filters the id out. -/
def mergeEvent (cur : List Post) : PostEvent → List Post
  | .insert p => if ∃ q ∈ cur, q.id = p.id then cur else (p :: cur).take 500
  | .update p => cur.map fun q => if q.id = p.id then p else q
  | .delete i => cur.filter fun q => decide (q.id ≠ i)

/-- The `clamp(n, min, max)` helper of the source. -/
def clampQ (n lo hi : ℚ) : ℚ := min (max n lo) hi

/-- The `score` callback of `FeedScreen` (App.tsx lines 355–359):
`engagement + clamp(12 - ageH, 0, 12)` with
`ageH = (now - createdAt) / 3_600_000` and
`engagement = likes*2 + recasts*3 + comments`.  The wall-clock reading
`Date.now()` is the explicit parameter `now`. -/
def score (now : Int) (p : Post) : ℚ :=
  (p.likes : ℚ) * 2 + (p.recasts : ℚ) * 3 + (p.comments : ℚ) +
    clampQ (12 - ((now : ℚ) - (p.createdAt : ℚ)) / 3600000) 0 12

/-- Modelled from the spec: `ageHours(p)`, the post's age in hours at the
sampled time. -/
def ageHours (now : Int) (p : Post) : ℚ := ((now : ℚ) - (p.createdAt : ℚ)) / 3600000

/-- Modelled from the spec: `recencyBonus(p) = clamp(12 - ageHours(p), 0, 12)`. -/
def recencyBonus (now : Int) (p : Post) : ℚ := clampQ (12 - ageHours now p) 0 12

/-- Modelled from the spec:
`S(p) = likes(p)*2 + recasts(p)*3 + comments(p)*1 + recencyBonus(p)`,
written from §4.4 of the spec for comparison with the source's `score`. -/
def scoreSpec (now : Int) (p : Post) : ℚ :=
  (p.likes : ℚ) * 2 + (p.recasts : ℚ) * 3 + (p.comments : ℚ) * 1 + recencyBonus now p

/-- The feed tabs of the source. -/
inductive Tab where
  | forYou
  | following
  | latest
deriving DecidableEq

/-- The view parameters consumed by the `filtered` memo. -/
structure ViewParams where
  tab : Tab
  search : String
  viewerId : String
  following : List String

/-- Descending order by a key, the relation realized by the JS comparators
`(a, b) => key(b) - key(a)`: `a` may precede `b` iff `key b ≤ key a`. -/
def keyDesc {α β : Type} [LinearOrder β] (key : α → β) : α → α → Prop :=
  fun a b => key b ≤ key a

instance {α β : Type} [LinearOrder β] {key : α → β} : DecidableRel (keyDesc key) :=
  fun a b => inferInstanceAs (Decidable (key b ≤ key a))

instance {α β : Type} [LinearOrder β] {key : α → β} : IsTotal α (keyDesc key) :=
  ⟨fun a b => le_total (key b) (key a)⟩

instance {α β : Type} [LinearOrder β] {key : α → β} : IsTrans α (keyDesc key) :=
  ⟨fun _ _ _ h1 h2 => le_trans h2 h1⟩

/-- Stage 1 of the `filtered` memo: in `following` mode retain posts by a
followed author or by the viewer (`fset.has(p.userId) || p.userId === me.id`). -/
def applyScope (vp : ViewParams) (posts : List Post) : List Post :=
  if vp.tab = Tab.following then
    posts.filter fun p => decide (p.userId ∈ vp.following ∨ p.userId = vp.viewerId)
  else posts

/-- Stage 2 of the `filtered` memo: `latest` sorts by descending
`createdAt`, `forYou` sorts by descending `score`; JS `Array.prototype.sort`
is stable, modelled by `List.insertionSort` (stable for a total preorder). -/
def applyOrder (now : Int) (tab : Tab) (posts : List Post) : List Post :=
  if tab = Tab.latest then posts.insertionSort (keyDesc fun p => p.createdAt)
  else if tab = Tab.forYou then posts.insertionSort (keyDesc (score now))
  else posts

/-- JS `String.prototype.includes`: does `q` occur as a contiguous
substring of `s`? -/
def hasSubstr (q s : List Char) : Bool :=
  (List.range (s.length + 1)).any fun i => q.isPrefixOf (s.drop i)

/-- JS `String.prototype.trim` on the character sequence: strip leading and
trailing whitespace. -/
def trimChars (l : List Char) : List Char :=
  ((l.dropWhile Char.isWhitespace).reverse.dropWhile Char.isWhitespace).reverse

/-- JS `String.prototype.toLowerCase` on the character sequence. -/
def lowerChars (l : List Char) : List Char := l.map Char.toLower

/-- The text predicate of stage 3: case-insensitive substring match of the
query against the post text or the author's display name. -/
def matchesSearch (names : String → Option String) (q : List Char) (p : Post) : Bool :=
  hasSubstr q (lowerChars p.text.data) ||
    (match names p.userId with
     | some n => hasSubstr q (lowerChars n.data)
     | none => false)

/-- Stage 3 of the `filtered` memo: `const q = search.trim().toLowerCase();
if (q) items = items.filter(...)` — the empty query applies no filter. -/
def applySearch (names : String → Option String) (search : String)
    (posts : List Post) : List Post :=
  if (lowerChars (trimChars search.data)).isEmpty then posts
  else posts.filter (matchesSearch names (lowerChars (trimChars search.data)))

/-- The full `filtered` memo of `FeedScreen` (App.tsx lines 361–372):
scope filter, then ordering, then text filter.  `names` looks up an
author's display name (the `users` map). -/
def filtered (now : Int) (names : String → Option String) (vp : ViewParams)
    (posts : List Post) : List Post :=
  applySearch names vp.search (applyOrder now vp.tab (applyScope vp posts))

/-!
The source's `score` does not take `now` as a parameter: it calls
`Date.now()` itself, so every evaluation of the sort comparator
`(a, b) => score(b) - score(a)` reads the wall clock twice (once for
`score(b)`, once for `score(a)`).  The clocked sort below makes those
reads explicit: `clock k` is the value `Date.now()` returns at the k-th
read, and each comparison consumes two consecutive reads.
-/

/-- `orderedInsert` where the comparison `score(b) ≤ score(a)` evaluates
`score(b)` at clock read `k` and `score(a)` at clock read `k + 1`,
mirroring the evaluation order of `score(b) - score(a)`. -/
def orderedInsertClocked (clock : Nat → Int) : Nat → Post → List Post → List Post × Nat
  | k, a, [] => ([a], k)
  | k, a, b :: l =>
    if score (clock k) b ≤ score (clock (k + 1)) a then (a :: b :: l, k + 2)
    else
      let r := orderedInsertClocked clock (k + 2) a l
      (b :: r.1, r.2)

/-- Stable comparison sort threading the clock-read counter. -/
def insertionSortClocked (clock : Nat → Int) : Nat → List Post → List Post × Nat
  | k, [] => ([], k)
  | k, a :: l =>
    let r := insertionSortClocked clock k l
    orderedInsertClocked clock r.2 a r.1

/-- The `forYou` ordering as the source executes it: the comparator samples
the wall clock (`clock`) on every `score` evaluation. -/
def forYouClocked (clock : Nat → Int) (posts : List Post) : List Post :=
  (insertionSortClocked clock 0 posts).1

/-- The slice of component state that `toggleLike` (part_002) touches:
the post list and the viewer's like flags (`userLikes`; membership of a
post id means the flag is set). -/
structure LikeState where
  posts : List Post
  userLikes : List String
deriving DecidableEq

/-- The remote outcomes observed by one `toggleLike` call: whether the
`likes` insert/delete succeeded; on success, the `select("likes")`
re-fetch result (`none` = error or no row); on failure, the
`select("*")` reload result (`none` = that reload failed too). -/
structure ToggleOutcome where
  remoteOk : Bool
  countFetch : Option Int
  postFetch : Option Post
deriving DecidableEq

/-- The optimistic counter patch
`cur.map(p => p.id === postId ? { ...p, likes: p.likes + delta } : p)`. -/
def patchLikes (posts : List Post) (postId : String) (delta : Int) : List Post :=
  posts.map fun p => if p.id = postId then { p with likes := p.likes + delta } else p

/-- `toggleLike` of part_002 (lines 353–398), with its remote effects
abstracted into `oc`.  Optimistically flips the flag and applies ±1 to the
counter; on success optionally overwrites the counter with the fetched
server value; on failure restores the flag, replaces the post with the
reloaded server row when that reload succeeds, and alerts
"Failed to toggle like.".  Returns the new state and the emitted
notifications. -/
def toggleLike (st : LikeState) (postId : String) (oc : ToggleOutcome) :
    LikeState × List String :=
  let already := postId ∈ st.userLikes
  let optFlags := if already then st.userLikes.filter (fun i => i != postId)
                  else postId :: st.userLikes
  let optPosts := patchLikes st.posts postId (if already then -1 else 1)
  if oc.remoteOk then
    let posts :=
      match oc.countFetch with
      | some n => optPosts.map fun p => if p.id = postId then { p with likes := n } else p
      | none => optPosts
    ({ posts := posts, userLikes := optFlags }, [])
  else
    let rbFlags := if already then postId :: optFlags
                   else optFlags.filter (fun i => i != postId)
    let posts :=
      match oc.postFetch with
      | some sp => optPosts.map fun p => if p.id = postId then sp else p
      | none => optPosts
    ({ posts := posts, userLikes := rbFlags }, ["Failed to toggle like."])

/-- The likes counter of the post with the given id, if present. -/
def likesOf (posts : List Post) (i : String) : Option Int :=
  (posts.find? fun p => p.id == i).map Post.likes

/-- The slice of part_000's `AppState` that `toggle` touches. -/
structure P0State where
  posts : List Post
  likes : List String
  recasts : List String
deriving DecidableEq

/-- The three interaction kinds of part_000's `toggle`. -/
inductive ToggleAct where
  | like
  | recast
  | comment
deriving DecidableEq

/-- `{...prev.flags, [postId]: b}` on the flag map, in the list model. -/
def setFlag (flags : List String) (postId : String) (b : Bool) : List String :=
  if b then (if postId ∈ flags then flags else postId :: flags)
  else flags.filter (fun i => i != postId)

/-- `toggle` of part_000 (lines 432–468): looks the post up, issues the
remote counter update (`remoteOk` is its outcome; on error the catch
leaves the state unchanged), then stores the new counter value —
`willLike ? post.likes + 1 : post.likes - 1`, with no lower clamp. -/
def toggleP0 (st : P0State) (postId : String) (act : ToggleAct) (remoteOk : Bool) :
    P0State :=
  match st.posts.find? (fun p => p.id == postId) with
  | none => st
  | some post =>
    if remoteOk then
      match act with
      | .like =>
        let willLike := ¬ (postId ∈ st.likes)
        let newLikes := if willLike then post.likes + 1 else post.likes - 1
        { st with
            posts := st.posts.map fun p =>
              if p.id = postId then { p with likes := newLikes } else p,
            likes := setFlag st.likes postId willLike }
      | .recast =>
        let willRecast := ¬ (postId ∈ st.recasts)
        let newRecasts := if willRecast then post.recasts + 1 else post.recasts - 1
        { st with
            posts := st.posts.map fun p =>
              if p.id = postId then { p with recasts := newRecasts } else p,
            recasts := setFlag st.recasts postId willRecast }
      | .comment =>
        { st with
            posts := st.posts.map fun p =>
              if p.id = postId then { p with comments := p.comments + 1 } else p }
    else st

/-- JS `!text.trim()`: the text contains no non-whitespace character. -/
def isBlank (s : String) : Bool := s.data.all Char.isWhitespace

/-- JS `text.slice(0, n)`. -/
def sliceText (s : String) (n : Nat) : String := String.mk (s.data.take n)

/-- Outcome of one `publish` call of part_000: whether the synchronous
validation rejected it, and the resulting post list. -/
structure PublishResult where
  rejected : Bool
  posts : List Post
deriving DecidableEq

/-- `publish` of part_000 (lines 382–430), post path: rejects only when the
trimmed text is empty and no image is attached; otherwise builds the new
post with `text: text.slice(0, 500)` and inserts it remotely — on remote
success the post is prepended to the local list, on remote error the local
list is untouched (and no validation failure is reported). -/
def publishP0 (meId text : String) (images : List String) (newId : String)
    (now : Int) (posts : List Post) (remoteOk : Bool) : PublishResult :=
  if isBlank text && images.isEmpty then { rejected := true, posts := posts }
  else
    let newPost : Post :=
      { id := newId, userId := meId, text := sliceText text 500, media := images,
        likes := 0, recasts := 0, comments := 0, createdAt := now }
    if remoteOk then { rejected := false, posts := newPost :: posts }
    else { rejected := false, posts := posts }

/-- The expiry filter of part_000's `StoriesTray` (lines 858–861):
`new Date(s.expiresAt).getTime() > Date.now()`. -/
def storiesTrayP0 (now : Int) (stories : List Story) : List Story :=
  stories.filter fun s => decide (now < s.expiresAt)

/-- The periodic prune of part_000 (lines 170–179): same strict predicate. -/
def pruneStories (now : Int) (stories : List Story) : List Story :=
  stories.filter fun s => decide (now < s.expiresAt)

/-- The `allStories` memo of App.tsx's `StoriesTray` (lines 743–772): the
viewer's stories first, then everyone else's — with no expiry check. -/
def storiesTrayApp (meId : String) (stories : List Story) : List Story :=
  stories.filter (fun s => s.userId == meId) ++
    stories.filter (fun s => s.userId != meId)

/-! Concrete fixtures used by the closed theorems below. -/

/-- Post P of the like-toggle scenario: likes 3, not yet liked. -/
def c1Post : Post := ⟨"P", "u2", "", [], 3, 0, 0, 0⟩

/-- State before the like toggle: P present, viewer's flag clear. -/
def c1State : LikeState := ⟨[c1Post], []⟩

/-- Two posts identical except for their ids (hence identical scores). -/
def c3a : Post := ⟨"a", "u", "t", [], 1, 1, 1, 0⟩

/-- See `c3a`. -/
def c3b : Post := ⟨"b", "u", "t", [], 1, 1, 1, 0⟩

/-- A fresh post (created at time 0) with engagement 14. -/
def c4fresh : Post := ⟨"fresh", "u", "", [], 7, 0, 0, 0⟩

/-- A stale post (older than 12 h at all relevant times) with engagement 25. -/
def c4old : Post := ⟨"old", "u", "", [], 11, 0, 3, -100000000⟩

/-- Clock stream of a run during which no time passes. -/
def c4clockA : Nat → Int := fun _ => 0

/-- Clock stream of a run that starts at the same instant but during which
two hours pass between the comparator's two `Date.now()` reads. -/
def c4clockB : Nat → Int := fun k => if k = 0 then 0 else 7200000

/-- A post whose likes counter is 0. -/
def c5Post : Post := ⟨"P", "u", "", [], 0, 0, 0, 0⟩

/-- Server-fetched state: P has 0 likes while the viewer's flag is set. -/
def c5State : P0State := ⟨[c5Post], ["P"], []⟩

/-- A 501-character post text. -/
def c6text : String := String.mk (List.replicate 501 'a')

/-- Another over-limit text, used by the witness. -/
def w6text : String := String.mk (List.replicate 501 'b')

/-- Two posts with equal creation timestamps and ids out of order. -/
def c7a : Post := ⟨"a", "u", "", [], 0, 0, 0, 5⟩

/-- See `c7a`. -/
def c7b : Post := ⟨"b", "u", "", [], 0, 0, 0, 5⟩

/-- A story that expired one second before `now = 1000000`. -/
def c9Story : Story := ⟨"s1", "u1", "url", 0, 999000⟩

/-- A story expiring one second after `now = 1000000`. -/
def w9inc : Story := ⟨"s2", "u2", "url", 0, 1001000⟩

/-- A post used by the merge witnesses. -/
def w2p : Post := ⟨"w", "u", "", [], 0, 0, 0, 0⟩

/-- A one-post store. -/
def w2cur : List Post := [w2p]

/-- A post used by the score-monotonicity witness. -/
def w8post : Post := ⟨"s", "u", "", [], 1, 1, 1, 0⟩

/-- The incoming post of the cap witness. -/
def w10p : Post := ⟨"new", "u", "", [], 0, 0, 0, 0⟩

/-- The resident post of the cap witness. -/
def w10q : Post := ⟨"old", "u", "", [], 0, 0, 0, 0⟩

/-! ## Helper lemmas -/

/-- Mapping an idempotent function twice is mapping it once. -/
theorem map_idem {α : Type} (f : α → α) (hf : ∀ a, f (f a) = f a) (l : List α) :
    (l.map f).map f = l.map f := by
  induction l with
  | nil => rfl
  | cons a l ih => simp [hf, ih]

/-- Filtering twice by the same predicate is filtering once. -/
theorem filter_idem {α : Type} (p : α → Bool) (l : List α) :
    (l.filter p).filter p = l.filter p := by
  induction l with
  | nil => rfl
  | cons a l ih =>
    by_cases h : p a <;> simp [List.filter_cons, h, ih]

/-- Inserting `a` in descending-key order either prepends it to the
key-`k` fibre (when `key a = k`) or leaves that fibre unchanged. -/
theorem filter_key_orderedInsert {α β : Type} [LinearOrder β] (key : α → β)
    (a : α) (l : List α) (k : β) :
    ((l.orderedInsert (keyDesc key) a).filter fun x => decide (key x = k)) =
      if key a = k then a :: l.filter (fun x => decide (key x = k))
      else l.filter fun x => decide (key x = k) := by
  induction l with
  | nil =>
    by_cases h : key a = k <;> simp [List.orderedInsert, h]
  | cons b l ih =>
    simp only [List.orderedInsert]
    by_cases hr : keyDesc key a b
    · rw [if_pos hr]
      by_cases h : key a = k <;> by_cases hb : key b = k <;>
        simp [List.filter_cons, h, hb]
    · rw [if_neg hr]
      have hab : key a < key b := lt_of_not_le (by simpa [keyDesc] using hr)
      by_cases h : key a = k
      · have hb : key b ≠ k := by
          subst h; exact (ne_of_gt hab)
        simp [List.filter_cons, hb, ih, h]
      · by_cases hb : key b = k <;> simp [List.filter_cons, hb, ih, h]

/-- Stability of the modelled sort: the key-`k` fibre of the output is the
key-`k` fibre of the input, in the same order. -/
theorem filter_key_insertionSort {α β : Type} [LinearOrder β] (key : α → β)
    (l : List α) (k : β) :
    ((l.insertionSort (keyDesc key)).filter fun x => decide (key x = k)) =
      l.filter fun x => decide (key x = k) := by
  induction l with
  | nil => rfl
  | cons a l ih =>
    simp only [List.insertionSort]
    rw [filter_key_orderedInsert]
    by_cases h : key a = k <;> simp [List.filter_cons, h, ih]

/-- With a constant clock the clocked insertion agrees with the pure one. -/
theorem orderedInsertClocked_const (t : Int) (k : Nat) (a : Post) (l : List Post) :
    (orderedInsertClocked (fun _ => t) k a l).1 =
      l.orderedInsert (keyDesc (score t)) a := by
  induction l generalizing k with
  | nil => rfl
  | cons b l ih =>
    by_cases h : score t b ≤ score t a
    · simp [orderedInsertClocked, List.orderedInsert, keyDesc, h]
    · simp [orderedInsertClocked, List.orderedInsert, keyDesc, h, ih]

/-- With a constant clock the clocked sort agrees with the pure one. -/
theorem insertionSortClocked_const (t : Int) (k : Nat) (l : List Post) :
    (insertionSortClocked (fun _ => t) k l).1 =
      l.insertionSort (keyDesc (score t)) := by
  induction l generalizing k with
  | nil => rfl
  | cons a l ih =>
    simp only [insertionSortClocked, List.insertionSort]
    rw [orderedInsertClocked_const, ih]

/-- The scope filter is the identity outside `following` mode. -/
theorem applyScope_not_following (vp : ViewParams) (posts : List Post)
    (h : vp.tab ≠ Tab.following) : applyScope vp posts = posts := if_neg h

/-- In `forYou` mode the ordering stage is the stable sort by descending
score. -/
theorem applyOrder_forYou (now : Int) (posts : List Post) :
    applyOrder now Tab.forYou posts = posts.insertionSort (keyDesc (score now)) := by
  unfold applyOrder
  rw [if_neg (by decide), if_pos rfl]

/-- In `latest` mode the ordering stage is the stable sort by descending
creation timestamp. -/
theorem applyOrder_latest (now : Int) (posts : List Post) :
    applyOrder now Tab.latest posts =
      posts.insertionSort (keyDesc fun p => p.createdAt) := by
  unfold applyOrder
  rw [if_pos rfl]

/-- An empty search string applies no text filter. -/
theorem applySearch_empty (names : String → Option String) (posts : List Post) :
    applySearch names "" posts = posts := rfl

/-- The text filter preserves any pairwise ordering property. -/
theorem applySearch_pairwise (names : String → Option String) (s : String)
    (posts : List Post) {r : Post → Post → Prop} (h : posts.Pairwise r) :
    (applySearch names s posts).Pairwise r := by
  unfold applySearch
  split
  · exact h
  · exact List.Pairwise.sublist (List.filter_sublist _) h

/-! ## Claim theorems -/

/-- C2: merging a realtime event is idempotent —
`merge (merge store e) e = merge store e` for every store and every
insert/update/delete event; a duplicate insert of a present id leaves the
list unchanged, and a delete of an absent id is a no-op. -/
theorem merge_event_idempotent (cur : List Post) (e : PostEvent) :
    mergeEvent (mergeEvent cur e) e = mergeEvent cur e ∧
    (∀ p : Post, p.id ∈ cur.map Post.id → mergeEvent cur (.insert p) = cur) ∧
    (∀ i : String, i ∉ cur.map Post.id → mergeEvent cur (.delete i) = cur) := by
  refine ⟨?_, ?_, ?_⟩
  · cases e with
    | insert p =>
      by_cases h : ∃ q ∈ cur, q.id = p.id
      · simp [mergeEvent, h]
      · have htake : (p :: cur).take 500 = p :: cur.take 499 := rfl
        have hmem : ∃ q ∈ p :: cur.take 499, q.id = p.id :=
          ⟨p, List.mem_cons_self p _, rfl⟩
        simp only [mergeEvent, if_neg h, htake, if_pos hmem]
    | update p =>
      simp only [mergeEvent]
      apply map_idem
      intro q
      by_cases h : q.id = p.id <;> simp [h]
    | delete i =>
      simp only [mergeEvent]
      exact filter_idem _ _
  · intro p hp
    have h : ∃ q ∈ cur, q.id = p.id := by
      obtain ⟨q, hq, he⟩ := List.mem_map.mp hp
      exact ⟨q, hq, he⟩
    simp [mergeEvent, h]
  · intro i hi
    simp only [mergeEvent]
    rw [List.filter_eq_self]
    intro q hq
    simp only [decide_eq_true_eq]
    intro he
    exact hi (List.mem_map.mpr ⟨q, hq, he⟩)

/-- C2 witness: idempotence, duplicate insert and absent delete on a
concrete one-post store. -/
theorem merge_event_idempotent_witness :
    mergeEvent (mergeEvent w2cur (.insert w2p)) (.insert w2p) =
        mergeEvent w2cur (.insert w2p) ∧
    mergeEvent w2cur (.insert w2p) = w2cur ∧
    mergeEvent w2cur (.delete "zz") = w2cur := by
  obtain ⟨h1, h2, h3⟩ := merge_event_idempotent w2cur (.insert w2p)
  exact ⟨h1, h2 w2p (by decide), h3 "zz" (by decide)⟩

/-- C8: the forYou score is monotone in each engagement counter (adding
`k > 0` to likes, recasts or comments never lowers it) and monotone in
recency (a strictly newer post with identical engagement scores at least
as high). -/
theorem score_monotone (now : Int) (a : Post) (k t : Int)
    (hk : 0 < k) (ht : a.createdAt < t) :
    score now a ≤ score now { a with likes := a.likes + k } ∧
    score now a ≤ score now { a with recasts := a.recasts + k } ∧
    score now a ≤ score now { a with comments := a.comments + k } ∧
    score now a ≤ score now { a with createdAt := t } := by
  have hkq : (0 : ℚ) < (k : ℚ) := by exact_mod_cast hk
  refine ⟨?_, ?_, ?_, ?_⟩
  · simp only [score]
    push_cast
    linarith
  · simp only [score]
    push_cast
    linarith
  · simp only [score]
    push_cast
    linarith
  · have h1 : ((a.createdAt : ℚ)) < (t : ℚ) := by exact_mod_cast ht
    have h2 : 12 - ((now : ℚ) - (a.createdAt : ℚ)) / 3600000 ≤
        12 - ((now : ℚ) - (t : ℚ)) / 3600000 := by linarith
    have h3 : clampQ (12 - ((now : ℚ) - (a.createdAt : ℚ)) / 3600000) 0 12 ≤
        clampQ (12 - ((now : ℚ) - (t : ℚ)) / 3600000) 0 12 :=
      min_le_min (max_le_max h2 le_rfl) le_rfl
    simp only [score]
    linarith

/-- C8 witness: monotonicity at a concrete post, `k = 2`, newer time 5. -/
theorem score_monotone_witness :
    score 0 w8post ≤ score 0 { w8post with likes := w8post.likes + 2 } ∧
    score 0 w8post ≤ score 0 { w8post with recasts := w8post.recasts + 2 } ∧
    score 0 w8post ≤ score 0 { w8post with comments := w8post.comments + 2 } ∧
    score 0 w8post ≤ score 0 { w8post with createdAt := 5 } :=
  score_monotone 0 w8post 2 5 (by decide) (by decide)

/-- C10: a realtime insert of a fresh id prepends the post and truncates
the list with `.slice(0, 500)`: the result is the new post followed by the
first 499 resident posts — anything past that is silently discarded — and
its length is `min (n + 1) 500`. -/
theorem merge_insert_cap (p : Post) (cur : List Post)
    (hfresh : ∀ q ∈ cur, q.id ≠ p.id) :
    mergeEvent cur (.insert p) = p :: cur.take 499 ∧
    (mergeEvent cur (.insert p)).length = min (cur.length + 1) 500 := by
  have hno : ¬ ∃ q ∈ cur, q.id = p.id := by
    rintro ⟨q, hq, he⟩
    exact hfresh q hq he
  have h1 : mergeEvent cur (.insert p) = p :: cur.take 499 := by
    simp only [mergeEvent, if_neg hno]
    rfl
  refine ⟨h1, ?_⟩
  rw [h1]
  simp only [List.length_cons, List.length_take]
  omega

/-- C10 witness: inserting into a full 500-post store keeps 500 posts,
dropping the oldest resident. -/
theorem merge_insert_cap_witness :
    mergeEvent (List.replicate 500 w10q) (.insert w10p) =
        w10p :: (List.replicate 500 w10q).take 499 ∧
    (mergeEvent (List.replicate 500 w10q) (.insert w10p)).length =
        min ((List.replicate 500 w10q).length + 1) 500 := by
  apply merge_insert_cap w10p (List.replicate 500 w10q)
  intro q hq
  rw [List.eq_of_mem_replicate hq]
  decide

/-- C1 counterexample: viewer likes post P (likes 3, flag clear), the
remote call fails and the failure-path reload of the post also fails: the
flag is back to clear and the alert is emitted, but P's likes counter is
left at the optimistic 4 — the exact pre-mutation state is not restored. -/
theorem toggle_like_rollback_counterexample :
    likesOf c1State.posts "P" = some 3 ∧
    likesOf (toggleLike c1State "P" ⟨false, none, none⟩).1.posts "P" = some 4 ∧
    ¬ ("P" ∈ (toggleLike c1State "P" ⟨false, none, none⟩).1.userLikes) ∧
    (toggleLike c1State "P" ⟨false, none, none⟩).2 = ["Failed to toggle like."] := by
  decide

/-- C1 (amended): on remote failure the viewer's like flag is restored
exactly and the failure notification is emitted, with no retry; the likes
counter is not rolled back by an inverse patch — it is reloaded from the
server, and when that reload also fails the optimistic ±1 stays in the
post list. -/
theorem toggle_like_failure_behavior (st : LikeState) (postId : String)
    (oc : ToggleOutcome) (hfail : oc.remoteOk = false) :
    ((postId ∈ (toggleLike st postId oc).1.userLikes) ↔ postId ∈ st.userLikes) ∧
    (toggleLike st postId oc).2 = ["Failed to toggle like."] ∧
    (oc.postFetch = none →
      (toggleLike st postId oc).1.posts =
        patchLikes st.posts postId (if postId ∈ st.userLikes then -1 else 1)) := by
  by_cases hal : postId ∈ st.userLikes
  · refine ⟨?_, ?_, ?_⟩
    · simp [toggleLike, hfail, hal]
    · simp [toggleLike, hfail, hal]
    · intro hpf
      simp [toggleLike, hfail, hal, hpf]
  · refine ⟨?_, ?_, ?_⟩
    · simp [toggleLike, hfail, hal]
    · simp [toggleLike, hfail, hal]
    · intro hpf
      simp [toggleLike, hfail, hal, hpf]

/-- C1 witness: the amended behavior at the concrete failing scenario. -/
theorem toggle_like_failure_behavior_witness :
    (("P" ∈ (toggleLike c1State "P" ⟨false, none, none⟩).1.userLikes) ↔
        "P" ∈ c1State.userLikes) ∧
    (toggleLike c1State "P" ⟨false, none, none⟩).2 = ["Failed to toggle like."] ∧
    ((⟨false, none, none⟩ : ToggleOutcome).postFetch = none →
      (toggleLike c1State "P" ⟨false, none, none⟩).1.posts =
        patchLikes c1State.posts "P" (if "P" ∈ c1State.userLikes then -1 else 1)) :=
  toggle_like_failure_behavior c1State "P" ⟨false, none, none⟩ rfl

/-- C3 counterexample: two posts with identical counters and timestamps
have equal scores, so the forYou feed is not ordered by strictly
descending score — adjacent equal scores occur. -/
theorem for_you_not_strict_counterexample :
    filtered 0 (fun _ => none) ⟨Tab.forYou, "", "v", []⟩ [c3a, c3b] = [c3a, c3b] ∧
    score 0 c3a = score 0 c3b ∧
    ¬ (filtered 0 (fun _ => none) ⟨Tab.forYou, "", "v", []⟩ [c3a, c3b]).Chain'
        (fun p q => score 0 q < score 0 p) := by
  have hsc : score 0 c3a = score 0 c3b := rfl
  have hout : filtered 0 (fun _ => none) ⟨Tab.forYou, "", "v", []⟩ [c3a, c3b] =
      [c3a, c3b] := by
    show applySearch (fun _ => none) ""
        (applyOrder 0 Tab.forYou
          (applyScope ⟨Tab.forYou, "", "v", []⟩ [c3a, c3b])) = [c3a, c3b]
    rw [applyScope_not_following _ _ (fun h => Tab.noConfusion h), applyOrder_forYou,
      applySearch_empty]
    simp only [List.insertionSort, List.orderedInsert_nil]
    exact List.orderedInsert_of_le _ _ (le_of_eq hsc.symm)
  refine ⟨hout, hsc, ?_⟩
  rw [hout]
  simp only [List.chain'_cons, List.chain'_singleton, and_true]
  rw [hsc]
  exact lt_irrefl _

/-- C3 (amended): the pipeline's score is exactly
`likes*2 + recasts*3 + comments*1 + clamp(12 - ageHours, 0, 12)`, and the
forYou feed is ordered by non-increasing (descending, but not strictly
descending) score; with an empty search the output is a permutation of
the post set. -/
theorem for_you_order (now : Int) (names : String → Option String)
    (s vid : String) (fl : List String) (posts : List Post) :
    (∀ p : Post, score now p = scoreSpec now p) ∧
    (filtered now names ⟨Tab.forYou, s, vid, fl⟩ posts).Sorted
        (keyDesc (score now)) ∧
    (s = "" → (filtered now names ⟨Tab.forYou, s, vid, fl⟩ posts).Perm posts) := by
  refine ⟨?_, ?_, ?_⟩
  · intro p
    simp only [score, scoreSpec, recencyBonus, ageHours]
    ring
  · show ((applySearch names s (applyOrder now Tab.forYou
        (applyScope ⟨Tab.forYou, s, vid, fl⟩ posts)))).Sorted (keyDesc (score now))
    rw [applyScope_not_following _ _ (fun h => Tab.noConfusion h), applyOrder_forYou]
    exact applySearch_pairwise _ _ _ (List.sorted_insertionSort _ _)
  · intro hs
    subst hs
    show ((applySearch names "" (applyOrder now Tab.forYou
        (applyScope ⟨Tab.forYou, "", vid, fl⟩ posts)))).Perm posts
    rw [applyScope_not_following _ _ (fun h => Tab.noConfusion h), applyOrder_forYou,
      applySearch_empty]
    exact List.perm_insertionSort _ _

/-- C3 witness: the amended claim at the concrete equal-score store. -/
theorem for_you_order_witness :
    score 0 c3a = scoreSpec 0 c3a ∧
    (filtered 0 (fun _ => none) ⟨Tab.forYou, "", "v", []⟩ [c3a, c3b]).Sorted
        (keyDesc (score 0)) ∧
    (filtered 0 (fun _ => none) ⟨Tab.forYou, "", "v", []⟩ [c3a, c3b]).Perm
        [c3a, c3b] := by
  obtain ⟨h1, h2, h3⟩ := for_you_order 0 (fun _ => none) "" "v" [] [c3a, c3b]
  exact ⟨h1 c3a, h2, h3 rfl⟩

/-- C4: with a single sampled "now" the forYou ordering is the pure stable
sort (so two such runs agree), but the source samples `Date.now()` inside
`score` at every comparator evaluation: two runs over the same store that
start at the same instant diverge when the clock advances between the two
reads of one comparison. -/
theorem for_you_clock_sampling :
    (∀ (t : Int) (l : List Post),
        forYouClocked (fun _ => t) l = l.insertionSort (keyDesc (score t))) ∧
    c4clockA 0 = c4clockB 0 ∧
    forYouClocked c4clockA [c4fresh, c4old] ≠
      forYouClocked c4clockB [c4fresh, c4old] := by
  have h25 : score 0 c4old = 25 := by
    norm_num [score, clampQ, c4old, max_def, min_def]
  have h26 : score 0 c4fresh = 26 := by
    norm_num [score, clampQ, c4fresh, max_def, min_def]
  have h24 : score 7200000 c4fresh = 24 := by
    norm_num [score, clampQ, c4fresh, max_def, min_def]
  refine ⟨?_, rfl, ?_⟩
  · intro t l
    unfold forYouClocked
    rw [insertionSortClocked_const]
  · have hA : forYouClocked c4clockA [c4fresh, c4old] = [c4fresh, c4old] := by
      norm_num [forYouClocked, insertionSortClocked, orderedInsertClocked,
        c4clockA, h25, h26]
    have hB : forYouClocked c4clockB [c4fresh, c4old] = [c4old, c4fresh] := by
      norm_num [forYouClocked, insertionSortClocked, orderedInsertClocked,
        c4clockB, h25, h24]
    rw [hA, hB]
    decide

/-- C5: part_000's `toggle` applied to a server-fetched state where post P
has 0 likes while the viewer's like flag is set stores
`post.likes - 1 = -1`: the likes counter goes negative. -/
theorem toggle_negative_likes :
    likesOf c5State.posts "P" = some 0 ∧
    "P" ∈ c5State.likes ∧
    likesOf (toggleP0 c5State "P" ToggleAct.like true).posts "P" = some (-1) := by
  decide

set_option maxRecDepth 10000 in
/-- C6 counterexample: a 501-character text is not rejected — `publish`
creates the post with the text truncated to 500 characters, mutating the
post list. -/
theorem publish_truncates_counterexample :
    c6text.length = 501 ∧
    (publishP0 "me" c6text [] "p1" 0 [] true).rejected = false ∧
    (publishP0 "me" c6text [] "p1" 0 [] true).posts.length = 1 ∧
    (∀ p ∈ (publishP0 "me" c6text [] "p1" 0 [] true).posts, p.text.length = 500) := by
  decide

/-- C6 (amended): over-limit text passes validation — the post is created
with `text.slice(0, 500)` (length exactly 500 when the text is longer) and
prepended on remote success; only an all-whitespace text with no media is
rejected synchronously with the post list unchanged. -/
theorem publish_behavior (meId text : String) (images : List String)
    (newId : String) (now : Int) (posts : List Post)
    (hnb : isBlank text = false) (hlen : 500 < text.length) :
    (publishP0 meId text images newId now posts true).rejected = false ∧
    (publishP0 meId text images newId now posts true).posts =
      { id := newId, userId := meId, text := sliceText text 500, media := images,
        likes := 0, recasts := 0, comments := 0, createdAt := now } :: posts ∧
    (sliceText text 500).length = 500 ∧
    (∀ t2 : String, ∀ imgs : List String, isBlank t2 = true → imgs = [] →
      publishP0 meId t2 imgs newId now posts true = ⟨true, posts⟩) := by
  refine ⟨?_, ?_, ?_, ?_⟩
  · simp [publishP0, hnb]
  · simp [publishP0, hnb]
  · simp only [sliceText, String.length, List.length_take]
    simp only [String.length] at hlen
    omega
  · intro t2 imgs hb hi
    simp [publishP0, hb, hi]

set_option maxRecDepth 10000 in
/-- C6 witness: the amended behavior at a concrete 501-character text. -/
theorem publish_behavior_witness :
    (publishP0 "m" w6text [] "p" 0 [] true).rejected = false ∧
    (publishP0 "m" w6text [] "p" 0 [] true).posts =
      { id := "p", userId := "m", text := sliceText w6text 500, media := [],
        likes := 0, recasts := 0, comments := 0, createdAt := 0 } :: [] ∧
    (sliceText w6text 500).length = 500 ∧
    (∀ t2 : String, ∀ imgs : List String, isBlank t2 = true → imgs = [] →
      publishP0 "m" t2 imgs "p" 0 [] true = ⟨true, []⟩) :=
  publish_behavior "m" w6text [] "p" 0 [] (by decide) (by decide)

/-- C7 counterexample: two posts with equal creation timestamps and ids out
of order are left in input order by the latest feed — ties are not broken
by id ordering. -/
theorem latest_tie_counterexample :
    filtered 0 (fun _ => none) ⟨Tab.latest, "", "v", []⟩ [c7b, c7a] = [c7b, c7a] ∧
    c7b.createdAt = c7a.createdAt ∧
    c7a.id = "a" ∧ c7b.id = "b" ∧
    [c7b, c7a] ≠ [c7a, c7b] := by
  decide

/-- C7 (amended): the latest feed is ordered by non-increasing creation
timestamp; ties keep their relative input order (the sort is stable), so
identical inputs always give identical output — but equal-timestamp posts
are not reordered by id. -/
theorem latest_order (now : Int) (names : String → Option String)
    (s vid : String) (fl : List String) (posts : List Post) :
    (filtered now names ⟨Tab.latest, s, vid, fl⟩ posts).Sorted
        (keyDesc fun p => p.createdAt) ∧
    (s = "" → ∀ k : Int,
      ((filtered now names ⟨Tab.latest, s, vid, fl⟩ posts).filter
          fun p => decide (p.createdAt = k)) =
        posts.filter fun p => decide (p.createdAt = k)) ∧
    (s = "" → (filtered now names ⟨Tab.latest, s, vid, fl⟩ posts).Perm posts) := by
  refine ⟨?_, ?_, ?_⟩
  · show ((applySearch names s (applyOrder now Tab.latest
        (applyScope ⟨Tab.latest, s, vid, fl⟩ posts)))).Sorted
        (keyDesc fun p => p.createdAt)
    rw [applyScope_not_following _ _ (fun h => Tab.noConfusion h), applyOrder_latest]
    exact applySearch_pairwise _ _ _ (List.sorted_insertionSort _ _)
  · intro hs k
    subst hs
    show ((applySearch names "" (applyOrder now Tab.latest
        (applyScope ⟨Tab.latest, "", vid, fl⟩ posts))).filter
          fun p => decide (p.createdAt = k)) =
        posts.filter fun p => decide (p.createdAt = k)
    rw [applyScope_not_following _ _ (fun h => Tab.noConfusion h), applyOrder_latest,
      applySearch_empty]
    exact filter_key_insertionSort (fun p : Post => p.createdAt) posts k
  · intro hs
    subst hs
    show ((applySearch names "" (applyOrder now Tab.latest
        (applyScope ⟨Tab.latest, "", vid, fl⟩ posts)))).Perm posts
    rw [applyScope_not_following _ _ (fun h => Tab.noConfusion h), applyOrder_latest,
      applySearch_empty]
    exact List.perm_insertionSort _ _

/-- C7 witness: the amended claim at the concrete equal-timestamp store. -/
theorem latest_order_witness :
    (filtered 0 (fun _ => none) ⟨Tab.latest, "", "v", []⟩ [c7b, c7a]).Sorted
        (keyDesc fun p => p.createdAt) ∧
    ((filtered 0 (fun _ => none) ⟨Tab.latest, "", "v", []⟩ [c7b, c7a]).filter
        fun p => decide (p.createdAt = 5)) =
      [c7b, c7a].filter (fun p => decide (p.createdAt = 5)) ∧
    (filtered 0 (fun _ => none) ⟨Tab.latest, "", "v", []⟩ [c7b, c7a]).Perm
        [c7b, c7a] := by
  obtain ⟨h1, h2, h3⟩ := latest_order 0 (fun _ => none) "" "v" [] [c7b, c7a]
  exact ⟨h1, h2 rfl 5, h3 rfl⟩

/-- C9 counterexample: a story that expired one second ago is still present
in the App.tsx stories tray, which applies no expiry filter — so it is not
excluded from every visible view. -/
theorem story_tray_app_counterexample :
    c9Story.expiresAt = 1000000 - 1000 ∧
    c9Story ∈ storiesTrayApp "me" [c9Story] := by
  decide

/-- C9 (amended): in the part_000 variant both the stories tray and the
prune keep a story iff its expiry strictly exceeds now — expiry = now − 1 s
is excluded, expiry = now + 1 s is included; the App.tsx variant's tray
performs no expiry filtering, so expired stories remain visible there. -/
theorem story_visibility (now : Int) (st : Story) (stories : List Story) :
    (st ∈ storiesTrayP0 now stories ↔ st ∈ stories ∧ now < st.expiresAt) ∧
    (st ∈ pruneStories now stories ↔ st ∈ stories ∧ now < st.expiresAt) ∧
    (st.expiresAt = now - 1000 → st ∉ storiesTrayP0 now stories) ∧
    (st.expiresAt = now + 1000 → st ∈ stories → st ∈ storiesTrayP0 now stories) := by
  have h1 : st ∈ storiesTrayP0 now stories ↔ st ∈ stories ∧ now < st.expiresAt := by
    simp [storiesTrayP0, List.mem_filter]
  refine ⟨h1, ?_, ?_, ?_⟩
  · simp [pruneStories, List.mem_filter]
  · intro he hm
    have := (h1.mp hm).2
    omega
  · intro he hm
    exact h1.mpr ⟨hm, by omega⟩

/-- C9 witness: boundary stories around `now = 1000000` — the one that
expired a second ago is excluded, the one expiring in a second included. -/
theorem story_visibility_witness :
    c9Story ∉ storiesTrayP0 1000000 [c9Story, w9inc] ∧
    w9inc ∈ storiesTrayP0 1000000 [c9Story, w9inc] :=
  ⟨(story_visibility 1000000 c9Story [c9Story, w9inc]).2.2.1 (by decide),
   (story_visibility 1000000 w9inc [c9Story, w9inc]).2.2.2 (by decide) (by decide)⟩

end Fuse
